import Mathlib

/-!
# Verification of the llmbot conversation-context and tool-orchestration core

Shallow embedding of the per-channel conversation manager and the
tool-calling orchestration of the `llmbot` repository
(`llmbot/discord_bot.py` and `llmbot/tools.py`), together with theorems
settling the specification's claims about it.

Conventions of the embedding:
* Python strings are Lean `String`s; character-level operations
  (slicing, regex scanning) work on `List Char`, matching Python's
  code-point semantics.
* Python floats are modelled as exact rationals (`ℚ`); the one claim
  that depends on IEEE-754 rounding is outside this embedding.
* Exceptions are modelled with `Except String`, the error carrying the
  `str()` of the exception.
* Network and clock effects are modelled by an explicit `World`
  environment passed to the functions that perform them.
* Recursions that Python expresses as loops over shrinking strings are
  written with an explicit fuel argument (always called with fuel
  at least the scrutinee's length) so that every definition reduces
  definitionally, plus congruence lemmas showing fuel irrelevance.
-/

namespace Llmbot

/-! ## Model-override parsing (`LLMBot._parse_model_from_query`) -/

/-- Whitespace as recognised by Python's `\S` regex class and `str.strip`
for the ASCII inputs this code handles. -/
def isPySpace (c : Char) : Bool :=
  c = ' ' || c = '\t' || c = '\n' || c = '\r' || c = '\x0b' || c = '\x0c'

/-- The literal part of the regex `!model=(\S+)` from
`LLMBot._parse_model_from_query`. -/
def modelMarker : List Char := ['!', 'm', 'o', 'd', 'e', 'l', '=']

/-- Try to match the regex `!model=(\S+)` at the head of `s`: on success
return the captured group (the maximal nonempty run of non-whitespace
after `!model=`) and the remainder of `s` after the whole match. -/
def matchAt (s : List Char) : Option (List Char × List Char) :=
  if modelMarker.isPrefixOf s then
    let rest := s.drop 7
    let tok := rest.takeWhile (fun c => !isPySpace c)
    if tok = [] then none else some (tok, rest.drop tok.length)
  else none

/-- `re.search(r"!model=(\S+)", s)`: scan left to right for the first
match; return `(text before the match, captured group, text after the
match)`. -/
def searchModel : List Char → Option (List Char × List Char × List Char)
  | [] => none
  | c :: cs =>
    match matchAt (c :: cs) with
    | some (t, r) => some ([], t, r)
    | none => (searchModel cs).map (fun x => (c :: x.1, x.2.1, x.2.2))

/-- `re.sub(r"!model=(\S+)", "", s)` with explicit fuel: remove every
non-overlapping match, scanning left to right. -/
def subAllF : ℕ → List Char → List Char
  | 0, l => l
  | _ + 1, [] => []
  | n + 1, c :: cs =>
    match matchAt (c :: cs) with
    | some (_, r) => subAllF n r
    | none => c :: subAllF n cs

/-- `re.sub(r"!model=(\S+)", "", s)`: the fuel `s.length` always
suffices since each step consumes at least one character. -/
def subAll (s : List Char) : List Char := subAllF s.length s

/-- Python `str.strip()`: drop whitespace from both ends. -/
def pyStrip (l : List Char) : List Char :=
  ((l.dropWhile isPySpace).reverse.dropWhile isPySpace).reverse

/-- `LLMBot._parse_model_from_query`: look for the first `!model=<token>`
marker; if present, return the token and the query with the markers
substituted away and stripped, else the default model and the query
unchanged. -/
def parse_model_from_query (defaultModel : String) (query : String) : String × String :=
  match searchModel query.toList with
  | some x => (x.2.1.asString, (pyStrip (subAll query.toList)).asString)
  | none => (defaultModel, query)

/-- Modelled from the spec: the cleaned query of a query containing a
marker, with "that marker and the surrounding extra whitespace removed
(surrounding whitespace collapsed/trimmed)" — the whitespace around the
removed marker collapses to a single separator and the ends are
trimmed. -/
def cleaned_query_collapsed (q : List Char) : Option (List Char) :=
  (searchModel q).map fun x =>
    let p := (x.1.reverse.dropWhile isPySpace).reverse
    let s := x.2.2.dropWhile isPySpace
    pyStrip (if p = [] ∨ s = [] then p ++ s else p ++ [' '] ++ s)

/-! ## Tool layer (`llmbot/tools.py`) -/

/-- A single quote character, used in Python-style diagnostic strings. -/
def sq : String := String.singleton (Char.ofNat 39)

/-- A Python value as it arrives in a tool-call argument mapping:
a number (int or float, modelled exactly as a rational), a string, or
anything else. -/
inductive PyVal where
  | num (q : ℚ)
  | str (s : String)
  | other
deriving DecidableEq

/-- Exact fraction addition, written in a form the kernel can evaluate;
equal to rational addition (`ratAdd_eq`). -/
def ratAdd (a b : ℚ) : ℚ := Rat.divInt (a.num * b.den + a.den * b.num) (a.den * b.den)

/-- Exact fraction multiplication (kernel-evaluable form). -/
def ratMul (a b : ℚ) : ℚ := mkRat (a.num * b.num) (a.den * b.den)

/-- Exact fraction subtraction (kernel-evaluable form). -/
def ratSub (a b : ℚ) : ℚ := ratAdd a (-b)

/-- Exact fraction division (kernel-evaluable form). -/
def ratDiv (a b : ℚ) : ℚ := Rat.divInt (a.num * b.den) (a.den * b.num)

/-- Numeric value of a run of decimal digits. -/
def natOfDigits (l : List Char) : ℕ :=
  l.foldl (fun a c => 10 * a + (c.toNat - 48)) 0

/-- Decimal literal (optionally signed, optional fractional part) as a
rational; `none` when the text is not such a literal. Models the inputs
Python's `float(str)` accepts in this code path. -/
def parseDecimal (l : List Char) : Option ℚ :=
  let core : List Char → Option ℚ := fun u =>
    match u.splitOn '.' with
    | [a] => if a ≠ [] ∧ a.all Char.isDigit then some (mkRat (natOfDigits a) 1) else none
    | [a, b] =>
      if (a ≠ [] ∨ b ≠ []) ∧ a.all Char.isDigit ∧ b.all Char.isDigit then
        some (mkRat (natOfDigits a * 10 ^ b.length + natOfDigits b) (10 ^ b.length))
      else none
    | _ => none
  match l with
  | '+' :: r => core r
  | '-' :: r => (core r).map Neg.neg
  | _ => core l

/-- Python's `float(x)` conversion as used by the numeric tools: numbers
pass through (exact value), numeric strings are parsed, everything else
raises. The error string is the `str()` of the raised exception. -/
def pyFloat : PyVal → Except String ℚ
  | .num q => .ok q
  | .str s =>
    match parseDecimal (pyStrip s.toList) with
    | some q => .ok q
    | none => .error ("could not convert string to float: " ++ sq ++ s ++ sq)
  | .other => .error "float() argument must be a string or a real number"

/-- A value returned by a numeric tool: `int` when the result is a whole
number, `float` otherwise. -/
inductive PyNum where
  | int (n : ℤ)
  | float (q : ℚ)
deriving DecidableEq

/-- Digits of the fractional expansion of `r / d`, up to `fuel` places. -/
def fracDigits : ℕ → ℕ → ℕ → List Char
  | 0, _, _ => []
  | _ + 1, 0, _ => []
  | fuel + 1, r, d => Char.ofNat (48 + (r * 10) / d) :: fracDigits fuel ((r * 10) % d) d

/-- Decimal rendering of a float result (finite stand-in for Python's
shortest round-trip float `repr`; the claims never inspect it). -/
def floatRepr (q : ℚ) : String :=
  let n := q.num.natAbs
  let d := q.den
  let sign := if q.num < 0 then "-" else ""
  let frac := n % d
  sign ++ toString (n / d) ++ "." ++
    (if frac = 0 then "0" else (fracDigits 17 frac d).asString)

/-- Python `str()` of a numeric tool result. -/
def pyStr : PyNum → String
  | .int n => toString n
  | .float q => floatRepr q

/-- `tools.add_numbers`: convert both arguments with `float`, add, and
return an `int` exactly when the sum is a whole number. A conversion
failure is re-raised as `Invalid number format: ...`. -/
def add_numbers (a b : PyVal) : Except String PyNum :=
  match pyFloat a with
  | .error e => .error ("Invalid number format: " ++ e)
  | .ok num_a =>
    match pyFloat b with
    | .error e => .error ("Invalid number format: " ++ e)
    | .ok num_b =>
      let result := ratAdd num_a num_b
      .ok (if result.den = 1 then .int result.num else .float result)

/-- `tools.subtract_numbers`. -/
def subtract_numbers (a b : PyVal) : Except String PyNum :=
  match pyFloat a with
  | .error e => .error ("Invalid number format: " ++ e)
  | .ok num_a =>
    match pyFloat b with
    | .error e => .error ("Invalid number format: " ++ e)
    | .ok num_b =>
      let result := ratSub num_a num_b
      .ok (if result.den = 1 then .int result.num else .float result)

/-- `tools.multiply_numbers`. -/
def multiply_numbers (a b : PyVal) : Except String PyNum :=
  match pyFloat a with
  | .error e => .error ("Invalid number format: " ++ e)
  | .ok num_a =>
    match pyFloat b with
    | .error e => .error ("Invalid number format: " ++ e)
    | .ok num_b =>
      let result := ratMul num_a num_b
      .ok (if result.den = 1 then .int result.num else .float result)

/-- `tools.divide_numbers`: like the others, except a zero divisor
raises `Division by zero is not allowed`, which the function's own
`except` clause re-wraps as `Invalid number format: ...` before it
reaches the caller. -/
def divide_numbers (a b : PyVal) : Except String PyNum :=
  match pyFloat a with
  | .error e => .error ("Invalid number format: " ++ e)
  | .ok num_a =>
    match pyFloat b with
    | .error e => .error ("Invalid number format: " ++ e)
    | .ok num_b =>
      if num_b = 0 then .error "Invalid number format: Division by zero is not allowed"
      else
        let result := ratDiv num_a num_b
        .ok (if result.den = 1 then .int result.num else .float result)

/-- `tools.count_letters`: any needle that is not exactly one character
yields an error result string (returned, not raised); matching is
case-insensitive; the result text embeds the verbatim needle and
haystack. Non-string arguments raise (`len`/`lower` on a non-string). -/
def count_letters (text letter : PyVal) : Except String String :=
  match letter with
  | .str ls =>
    if ls.length ≠ 1 then .ok "Error: Please provide exactly one letter to count"
    else
      match text with
      | .str ts =>
        let text_lower := ts.toList.map Char.toLower
        let letter_lower := ls.toList.map Char.toLower
        let count := text_lower.count (letter_lower.getD 0 ' ')
        .ok ("The letter " ++ sq ++ ls ++ sq ++ " appears " ++ toString count ++
          " times in " ++ sq ++ ts ++ sq)
      | _ => .error "this object has no attribute lower"
  | _ => .error "object of this type has no len"

/-- Truncation toward zero, Python's `int()` on a number: the exact
quotient of numerator by (positive) denominator, truncated. -/
def pyTruncQ (q : ℚ) : ℤ := q.num.tdiv q.den

/-- Python's `int(x)` as used by `websearch` on its `limit` argument. -/
def pyIntOf : PyVal → Except String ℤ
  | .num q => .ok (pyTruncQ q)
  | .str s =>
    let l := pyStrip s.toList
    let core : List Char → Option ℤ := fun u =>
      if u ≠ [] ∧ u.all Char.isDigit then some (natOfDigits u) else none
    match
      (match l with
       | '+' :: r => core r
       | '-' :: r => (core r).map Neg.neg
       | _ => core l) with
    | some n => .ok n
    | none => .error ("invalid literal for int() with base 10: " ++ sq ++ s ++ sq)
  | .other => .error "int() argument must be a string or a number"

/-- The external effects a tool invocation can perform, made explicit:
the formatted current UTC time (`get_current_time`), and the full
network-and-formatting outcome of `get_metar` and `websearch` for given
arguments (those two tools are network-bound; their HTTP interaction and
response formatting are abstracted as environment responses since no
claim concerns their bodies). -/
structure World where
  now : String
  metarResult : PyVal → String
  websearchResult : PyVal → ℤ → String

/-- The argument mapping of a tool call (a Python `dict[str, Any]`,
keys unique). -/
abbrev Args := List (String × PyVal)

/-- Keyword-argument binding for a Python function of no parameters: any
argument raises `TypeError`. -/
def bindNone (args : Args) : Except String Unit :=
  if args = [] then .ok () else .error "got an unexpected keyword argument"

/-- Keyword-argument binding for a Python function of one required
parameter. -/
def bindOne (k : String) (args : Args) : Except String PyVal :=
  match args.lookup k with
  | some v =>
    if args.all (fun p => p.1 = k) then .ok v
    else .error "got an unexpected keyword argument"
  | none => .error ("missing 1 required positional argument: " ++ sq ++ k ++ sq)

/-- Keyword-argument binding for a Python function of two required
parameters. -/
def bindTwo (k1 k2 : String) (args : Args) : Except String (PyVal × PyVal) :=
  match args.lookup k1, args.lookup k2 with
  | some v1, some v2 =>
    if args.all (fun p => p.1 = k1 || p.1 = k2) then .ok (v1, v2)
    else .error "got an unexpected keyword argument"
  | _, _ => .error "missing required positional arguments"

/-- Keyword-argument binding for `websearch(query, limit=10)`. -/
def bindWebsearch (args : Args) : Except String (PyVal × PyVal) :=
  match args.lookup "query" with
  | some q =>
    if args.all (fun p => p.1 = "query" || p.1 = "limit") then
      .ok (q, (args.lookup "limit").getD (.num 10))
    else .error "got an unexpected keyword argument"
  | none => .error ("missing 1 required positional argument: " ++ sq ++ "query" ++ sq)

/-- `tools.TOOL_FUNCTIONS`: the registry, in source order, each entry
binding keyword arguments, running the tool body, and applying `str()`
to a successful result. A raised exception travels as `.error`. -/
def TOOL_FUNCTIONS (w : World) : List (String × (Args → Except String String)) :=
  [("add_numbers", fun args => do
      let (a, b) ← bindTwo "a" "b" args
      let r ← add_numbers a b
      pure (pyStr r)),
   ("subtract_numbers", fun args => do
      let (a, b) ← bindTwo "a" "b" args
      let r ← subtract_numbers a b
      pure (pyStr r)),
   ("multiply_numbers", fun args => do
      let (a, b) ← bindTwo "a" "b" args
      let r ← multiply_numbers a b
      pure (pyStr r)),
   ("divide_numbers", fun args => do
      let (a, b) ← bindTwo "a" "b" args
      let r ← divide_numbers a b
      pure (pyStr r)),
   ("get_current_time", fun args => do
      let _ ← bindNone args
      pure w.now),
   ("get_metar", fun args => do
      let v ← bindOne "icao_code" args
      pure (w.metarResult v)),
   ("count_letters", fun args => do
      let (t, l) ← bindTwo "text" "letter" args
      count_letters t l),
   ("websearch", fun args => do
      let (q, lim) ← bindWebsearch args
      let n ← pyIntOf lim
      pure (w.websearchResult q n))]

/-- `tools.call_tool`: name-based dispatch over `TOOL_FUNCTIONS`; an
unknown name yields `Unknown tool: ...`, and any exception raised by the
tool is caught and converted to `Error calling tool ...: ...`. -/
def call_tool (w : World) (tool_name : String) (arguments : Args) : String :=
  match (TOOL_FUNCTIONS w).lookup tool_name with
  | none => "Unknown tool: " ++ tool_name
  | some f =>
    match f arguments with
    | .ok result => result
    | .error e => "Error calling tool " ++ tool_name ++ ": " ++ e

/-! ## Messages and the tool-orchestration loop -/

/-- A tool-call request as produced by the backend:
`tool_call["function"]["name"]`, `tool_call["function"]["arguments"]`,
and the optional correlation `tool_call["id"]`. -/
structure ToolCall where
  id : Option String
  name : String
  arguments : Args
deriving DecidableEq

/-- A role-tagged chat message dict. `tool_calls` is the (possibly
empty) list of requested tool invocations on an assistant message;
`tool_call_id` is set on `{role: tool}` result messages when the
request carried an `id`. -/
structure Msg where
  role : String
  content : String
  tool_calls : List ToolCall := []
  tool_call_id : Option String := none
deriving DecidableEq

/-- A backend chat response (`response["message"]`). -/
structure ChatResponse where
  message : Msg
deriving DecidableEq

/-- The `{role: tool}` result message appended for one tool-call
request. -/
def tool_result_message (w : World) (tc : ToolCall) : Msg :=
  { role := "tool", content := call_tool w tc.name tc.arguments, tool_call_id := tc.id }

/-- `tools.TOOLS`: the declared tool names, in source order (the
parameter schemas play no role in any claim). -/
def TOOLS : List String :=
  ["add_numbers", "get_current_time", "get_metar", "subtract_numbers",
   "multiply_numbers", "divide_numbers", "count_letters", "websearch"]

/-- `tools.chat_with_tools`, with the backend abstracted as `client`
(second argument: the tool declarations passed, `none` when the call
passes none) and the effects instrumented: the result is
`(final text, conversation returned, chat calls issued in order,
tool invocations performed in order)`. The conversation extends a copy
of `messages`; the input list itself is never changed. -/
def chat_with_tools (w : World) (tools : List String)
    (client : List Msg → Option (List String) → ChatResponse)
    (messages : List Msg) :
    String × List Msg × List (List Msg × Option (List String)) × List (String × Args) :=
  if tools = [] then
    let result := client messages none
    (result.message.content, messages, [(messages, none)], [])
  else
    let response := client messages (some tools)
    if response.message.tool_calls = [] then
      (response.message.content, messages, [(messages, some tools)], [])
    else
      let conversation := messages ++ [response.message]
      let step := fun (acc : List Msg × List (String × Args)) (tc : ToolCall) =>
        let tool_result := call_tool w tc.name tc.arguments
        (acc.1 ++ [{ role := "tool", content := tool_result, tool_call_id := tc.id : Msg }],
         acc.2 ++ [(tc.name, tc.arguments)])
      let folded := response.message.tool_calls.foldl step ([], [])
      let conversation2 := conversation ++ folded.1
      let final_response := client conversation2 none
      (final_response.message.content, conversation2,
       [(messages, some tools), (conversation2, none)], folded.2)

/-! ## Conversation context and message handling (`llmbot/discord_bot.py`) -/

/-- `LLMBot._estimate_tokens`: `len(text) // 4`. -/
def estimate_tokens (text : String) : ℕ := text.length / 4

/-- Estimated token count of a history: the sum over the entries'
`content`. -/
def history_tokens (history : List Msg) : ℕ :=
  (history.map (fun m => estimate_tokens m.content)).sum

/-- The bot configuration fields the conversation core reads: the
default model, the system prompt, and the trimming policy
(`context_length`, `context_trim_threshold`). -/
structure BotCfg where
  model : String
  system_message : String
  context_length : ℕ
  context_trim_threshold : ℚ

/-- `int(self.context_length * self.context_trim_threshold)`. -/
def token_threshold (cfg : BotCfg) : ℤ :=
  pyTruncQ (ratMul (cfg.context_length : ℚ) cfg.context_trim_threshold)

/-- Estimated token count of system prompt plus history, as an
integer. -/
def total_tokens (cfg : BotCfg) (history : List Msg) : ℤ :=
  (estimate_tokens cfg.system_message : ℤ) + (history_tokens history : ℤ)

/-- The `while total_tokens > token_threshold and len(history) > 1`
eviction loop of `LLMBot._trim_history_if_needed`, popping the front
entry and deducting its estimate each round. -/
def trimLoop (θ : ℤ) : ℤ → List Msg → List Msg
  | total, m1 :: m2 :: rest =>
    if θ < total then
      trimLoop θ (total - (estimate_tokens m1.content : ℤ)) (m2 :: rest)
    else m1 :: m2 :: rest
  | _, hist => hist

/-- `LLMBot._trim_history_if_needed` on a channel's history. -/
def trim_history_if_needed (cfg : BotCfg) (history : List Msg) : List Msg :=
  trimLoop (token_threshold cfg) (total_tokens cfg history) history

/-- `LLMBot._format_message_with_timestamp`. -/
def format_message_with_timestamp (user_name content : String) (is_bot : Bool) : String :=
  if is_bot then "I said: " ++ content else user_name ++ ": " ++ content

/-- `LLMBot._add_to_history`: append one formatted entry, role `user`
or `assistant`. -/
def add_to_history (history : List Msg) (user_name content : String) (is_bot : Bool) :
    List Msg :=
  history ++ [{ role := if is_bot then "assistant" else "user",
                content := format_message_with_timestamp user_name content is_bot }]

/-- The system message dict built at the top of the handler's try
block. -/
def system_msg (cfg : BotCfg) : Msg := { role := "system", content := cfg.system_message }

/-- The message list sent to the backend: system message followed by
the channel's history (`handle_llm_query` lines 243-247). -/
def messages_for_model (cfg : BotCfg) (history : List Msg) : List Msg :=
  system_msg cfg :: history

/-- One round of the outbound chunking comprehension
`[text[i:i+2000] for i in range(0, len(text), 2000)]`, with fuel (the
text's length always suffices: each round consumes at least one
character). -/
def chunkF : ℕ → List Char → List (List Char)
  | 0, _ => []
  | _ + 1, [] => []
  | n + 1, c :: cs => (c :: cs).take 2000 :: chunkF n ((c :: cs).drop 2000)

/-- The outbound send of `handle_llm_query` (lines 310-321): a reply of
more than 2000 characters is cut into consecutive 2000-character slices
sent in order; otherwise it is sent as a single message. -/
def reply_chunks (l : List Char) : List (List Char) :=
  if 2000 < l.length then chunkF l.length l else [l]

/-- String-level view of `reply_chunks`. -/
def send_reply_chunks (t : String) : List String :=
  (reply_chunks t.toList).map List.asString

/-- The user entry appended for a query. -/
def user_message (user_name cleaned_query : String) : Msg :=
  { role := "user", content := format_message_with_timestamp user_name cleaned_query false }

/-- `LLMBot.handle_llm_query` acting on the invoking channel's history,
with tools disabled and the backend round trip abstracted as `outcome`
(`.ok response_text`, or `.error e` for a raised exception, caught by
the handler's `except` clause). Returns the channel's history after the
query and the replies sent, in order. -/
def handle_llm_query (cfg : BotCfg) (history : List Msg)
    (user_name query : String) (outcome : Except String String) :
    List Msg × List String :=
  let cleaned_query := (parse_model_from_query cfg.model query).2
  let history1 := add_to_history history user_name cleaned_query false
  let history2 := trim_history_if_needed cfg history1
  match outcome with
  | .error e => (history2, ["Error processing your request: " ++ e])
  | .ok response_text =>
    let history3 := add_to_history history2 "Assistant" response_text true
    let final_text :=
      if response_text = "" then "No response received from the model." else response_text
    (history3, send_reply_chunks final_text)

/-- Whether every `{role: user}` entry of a history is followed by some
later entry of another role (an assistant reply, a tool message, or any
error marker) — the committed-turn consistency notion of the
specification, in its weakest form. -/
def user_turn_answered (h : List Msg) : Bool :=
  (List.range h.length).all fun i =>
    let mi := h.getD i { role := "", content := "" }
    (mi.role != "user") ||
      (List.range h.length).any fun j =>
        decide (i < j) && (h.getD j { role := "", content := "" }).role != "user"

/-! ## Lemmas about the regex scan and substitution -/

theorem matchAt_length_lt {s t r : List Char} (h : matchAt s = some (t, r)) :
    r.length < s.length := by
  unfold matchAt at h
  by_cases hp : modelMarker.isPrefixOf s
  · simp only [hp, if_true] at h
    by_cases ht : (s.drop 7).takeWhile (fun c => !isPySpace c) = []
    · simp [ht] at h
    · simp only [ht, if_neg, if_false] at h
      have hpre : modelMarker <+: s := List.isPrefixOf_iff_prefix.mp hp
      have hlen : 7 ≤ s.length := by
        have := hpre.length_le
        simpa [modelMarker] using this
      have hr : r = (s.drop 7).drop ((s.drop 7).takeWhile (fun c => !isPySpace c)).length := by
        injection h with h1
        injection h1 with _ h2
        exact h2.symm
      have h1 : r.length ≤ (s.drop 7).length := by
        rw [hr]; exact (List.length_drop _ _).le.trans (Nat.sub_le _ _)
      have h2 : (s.drop 7).length < s.length := by
        rw [List.length_drop]
        omega
      omega
  · simp [hp] at h

theorem subAllF_congr : ∀ (n m : ℕ) (l : List Char),
    l.length ≤ n → l.length ≤ m → subAllF n l = subAllF m l := by
  intro n
  induction n with
  | zero =>
    intro m l hn _hm
    have : l = [] := List.length_eq_zero.mp (Nat.le_zero.mp hn)
    subst this
    cases m <;> rfl
  | succ n ih =>
    intro m l hn hm
    cases l with
    | nil => cases m <;> rfl
    | cons c cs =>
      cases m with
      | zero => simp at hm
      | succ m' =>
        simp only [subAllF]
        cases hmt : matchAt (c :: cs) with
        | some tr =>
          obtain ⟨t, r⟩ := tr
          have hlt := matchAt_length_lt hmt
          simp only [List.length_cons] at hn hm hlt
          exact ih m' r (by omega) (by omega)
        | none =>
          simp only [List.length_cons] at hn hm
          rw [ih m' cs (by omega) (by omega)]

theorem subAll_nil : subAll [] = [] := rfl

theorem subAll_cons_match {c : Char} {cs t r : List Char}
    (h : matchAt (c :: cs) = some (t, r)) : subAll (c :: cs) = subAll r := by
  have hlt := matchAt_length_lt h
  simp only [subAll, List.length_cons, subAllF, h]
  exact subAllF_congr cs.length r.length r (by simpa using Nat.lt_succ_iff.mp hlt) le_rfl

theorem subAll_cons_nomatch {c : Char} {cs : List Char}
    (h : matchAt (c :: cs) = none) : subAll (c :: cs) = c :: subAll cs := by
  simp only [subAll, List.length_cons, subAllF, h]

theorem subAll_of_search_none : ∀ {l : List Char}, searchModel l = none → subAll l = l := by
  intro l
  induction l with
  | nil => intro _; rfl
  | cons c cs ih =>
    intro h
    unfold searchModel at h
    cases hmt : matchAt (c :: cs) with
    | some tr => rw [hmt] at h; cases h
    | none =>
      rw [hmt] at h
      have hcs : searchModel cs = none := by
        cases hs : searchModel cs with
        | none => rfl
        | some x => rw [hs] at h; cases h
      rw [subAll_cons_nomatch hmt, ih hcs]

theorem subAll_of_search_some : ∀ {l pre t post : List Char},
    searchModel l = some (pre, t, post) → subAll l = pre ++ subAll post := by
  intro l
  induction l with
  | nil => intro pre t post h; cases h
  | cons c cs ih =>
    intro pre t post h
    unfold searchModel at h
    cases hmt : matchAt (c :: cs) with
    | some tr =>
      obtain ⟨t', r'⟩ := tr
      rw [hmt] at h
      simp only [Option.some.injEq, Prod.mk.injEq] at h
      obtain ⟨h2, h3, h4⟩ := h
      subst h2; subst h3; subst h4
      rw [subAll_cons_match hmt]
      rfl
    | none =>
      rw [hmt] at h
      cases hs : searchModel cs with
      | none => rw [hs] at h; cases h
      | some x =>
        obtain ⟨p', t', post'⟩ := x
        rw [hs] at h
        simp only [Option.map_some', Option.some.injEq, Prod.mk.injEq] at h
        obtain ⟨h1, h2, h3⟩ := h
        subst h1; subst h2; subst h3
        rw [subAll_cons_nomatch hmt, ih hs]
        rfl

/-! ## The fraction helpers agree with rational arithmetic -/

theorem ratAdd_eq (a b : ℚ) : ratAdd a b = a + b := (Rat.add_num_den a b).symm

theorem ratMul_eq (a b : ℚ) : ratMul a b = a * b := (Rat.mul_eq_mkRat a b).symm

theorem ratSub_eq (a b : ℚ) : ratSub a b = a - b := by
  rw [ratSub, ratAdd_eq, sub_eq_add_neg]

theorem ratDiv_eq (a b : ℚ) : ratDiv a b = a / b := (Rat.div_def' a b).symm

theorem token_threshold_eq (cfg : BotCfg) :
    token_threshold cfg = pyTruncQ ((cfg.context_length : ℚ) * cfg.context_trim_threshold) := by
  rw [token_threshold, ratMul_eq]

/-! ## Reduction lemmas for results and argument binding -/

theorem except_bind_ok {α β : Type} (a : α) (f : α → Except String β) :
    (Except.ok a >>= f : Except String β) = f a := rfl

theorem except_bind_error {α β : Type} (e : String) (f : α → Except String β) :
    (Except.error e >>= f : Except String β) = Except.error e := rfl

theorem except_map_ok {α β : Type} (f : α → β) (a : α) :
    (f <$> (Except.ok a : Except String α) : Except String β) = Except.ok (f a) := rfl

theorem except_map_error {α β : Type} (f : α → β) (e : String) :
    (f <$> (Except.error e : Except String α) : Except String β) = Except.error e := rfl

theorem bindTwo_ok_snd {k1 k2 : String} {args : Args} {a b : PyVal}
    (h : bindTwo k1 k2 args = .ok (a, b)) : args.lookup k2 = some b := by
  unfold bindTwo at h
  cases h1 : args.lookup k1 with
  | none =>
    rw [h1] at h
    cases h2 : args.lookup k2 with
    | none => rw [h2] at h; cases h
    | some v2 => rw [h2] at h; cases h
  | some v1 =>
    rw [h1] at h
    cases h2 : args.lookup k2 with
    | none => rw [h2] at h; cases h
    | some v2 =>
      rw [h2] at h
      dsimp only at h
      by_cases hall : (args.all fun p => (decide (p.1 = k1) || decide (p.1 = k2))) = true
      · rw [if_pos hall] at h
        injection h with h3
        injection h3 with h4 h5
        rw [h5]
      · rw [if_neg hall] at h
        cases h

theorem tool_fold_eq (w : World) (tcs : List ToolCall)
    (acc : List Msg × List (String × Args)) :
    tcs.foldl (fun acc tc =>
      (acc.1 ++ [{ role := "tool", content := call_tool w tc.name tc.arguments,
                   tool_call_id := tc.id : Msg }],
       acc.2 ++ [(tc.name, tc.arguments)])) acc =
      (acc.1 ++ tcs.map (tool_result_message w),
       acc.2 ++ tcs.map (fun tc => (tc.name, tc.arguments))) := by
  induction tcs generalizing acc with
  | nil => simp
  | cons tc rest ih =>
    simp only [List.foldl_cons, List.map_cons, ih]
    simp [tool_result_message]

/-! ## Properties of the trimming loop -/

theorem history_tokens_cons (m : Msg) (l : List Msg) :
    history_tokens (m :: l) = estimate_tokens m.content + history_tokens l := by
  simp [history_tokens]

theorem trimLoop_spec (θ sysT : ℤ) :
    ∀ hist : List Msg,
      trimLoop θ (sysT + (history_tokens hist : ℤ)) hist <:+ hist ∧
      (hist ≠ [] → trimLoop θ (sysT + (history_tokens hist : ℤ)) hist ≠ []) ∧
      (sysT + (history_tokens (trimLoop θ (sysT + (history_tokens hist : ℤ)) hist) : ℤ) ≤ θ ∨
        (trimLoop θ (sysT + (history_tokens hist : ℤ)) hist).length ≤ 1) ∧
      (∀ s, s <:+ hist → trimLoop θ (sysT + (history_tokens hist : ℤ)) hist <:+ s →
        s ≠ trimLoop θ (sysT + (history_tokens hist : ℤ)) hist →
        θ < sysT + (history_tokens s : ℤ) ∧ 1 < s.length) := by
  intro hist
  induction hist with
  | nil =>
    refine ⟨List.suffix_rfl, fun h => absurd rfl h, Or.inr (by simp [trimLoop]), ?_⟩
    intro s hs _hrs hne
    exact absurd (List.suffix_nil.mp hs) (by simpa [trimLoop] using hne)
  | cons m1 tail ih =>
    cases tail with
    | nil =>
      refine ⟨List.suffix_rfl, fun _ => by simp [trimLoop], Or.inr (by simp [trimLoop]), ?_⟩
      intro s hs hrs hne
      simp only [trimLoop] at hrs hne
      exact absurd ((hrs.eq_of_length (Nat.le_antisymm hrs.length_le hs.length_le)).symm) hne
    | cons m2 rest =>
      by_cases hlt : θ < sysT + (history_tokens (m1 :: m2 :: rest) : ℤ)
      · have htot : sysT + (history_tokens (m1 :: m2 :: rest) : ℤ) -
            (estimate_tokens m1.content : ℤ) = sysT + (history_tokens (m2 :: rest) : ℤ) := by
          rw [history_tokens_cons]
          push_cast
          ring
        have hred : trimLoop θ (sysT + (history_tokens (m1 :: m2 :: rest) : ℤ))
            (m1 :: m2 :: rest) =
            trimLoop θ (sysT + (history_tokens (m2 :: rest) : ℤ)) (m2 :: rest) := by
          simp only [trimLoop, if_pos hlt, htot]
        obtain ⟨ih1, ih2, ih3, ih4⟩ := ih
        rw [hred]
        refine ⟨ih1.trans (List.suffix_cons m1 (m2 :: rest)), fun _ => ih2 (by simp), ih3, ?_⟩
        intro s hs hrs hne
        rcases List.suffix_cons_iff.mp hs with rfl | hs'
        · exact ⟨by exact_mod_cast hlt, by simp⟩
        · exact ih4 s hs' hrs hne
      · have hred : trimLoop θ (sysT + (history_tokens (m1 :: m2 :: rest) : ℤ))
            (m1 :: m2 :: rest) = m1 :: m2 :: rest := by
          simp only [trimLoop, if_neg hlt]
        rw [hred]
        refine ⟨List.suffix_rfl, fun _ => by simp, Or.inl (not_lt.mp hlt), ?_⟩
        intro s hs hrs hne
        exact absurd ((hrs.eq_of_length (Nat.le_antisymm hrs.length_le hs.length_le)).symm) hne

theorem trim_history_suffix (cfg : BotCfg) (hist : List Msg) :
    trim_history_if_needed cfg hist <:+ hist :=
  (trimLoop_spec (token_threshold cfg) (estimate_tokens cfg.system_message : ℤ) hist).1

theorem trim_history_ne_nil (cfg : BotCfg) (hist : List Msg) (h : hist ≠ []) :
    trim_history_if_needed cfg hist ≠ [] :=
  (trimLoop_spec (token_threshold cfg) (estimate_tokens cfg.system_message : ℤ) hist).2.1 h

theorem suffix_concat_last {α : Type} {s h : List α} {u : α}
    (hs : s <:+ h ++ [u]) (hne : s ≠ []) : ∃ t, s = t ++ [u] := by
  obtain ⟨p, hp⟩ := hs
  rcases List.eq_nil_or_concat s with rfl | ⟨s', a, rfl⟩
  · exact absurd rfl hne
  · have ha : a = u := by
      have h1 : ((p ++ s') ++ [a]).getLast? = some a := List.getLast?_concat _
      have h2 : (h ++ [u]).getLast? = some u := List.getLast?_concat _
      rw [List.concat_eq_append, ← List.append_assoc] at hp
      rw [hp, h2] at h1
      exact (Option.some.injEq _ _ ▸ h1.symm :)
    exact ⟨s', by rw [List.concat_eq_append, ha]⟩

/-! ## Properties of the outbound chunker -/

theorem chunkF_flatten : ∀ (n : ℕ) (l : List Char), l.length ≤ n → (chunkF n l).flatten = l := by
  intro n
  induction n with
  | zero =>
    intro l hn
    have : l = [] := List.length_eq_zero.mp (Nat.le_zero.mp hn)
    subst this
    rfl
  | succ n ih =>
    intro l hn
    cases l with
    | nil => rfl
    | cons c cs =>
      simp only [chunkF, List.flatten_cons]
      rw [ih ((c :: cs).drop 2000) (by simp only [List.length_drop, List.length_cons] at hn ⊢; omega)]
      exact List.take_append_drop _ _

theorem chunkF_length_le : ∀ (n : ℕ) (l c : List Char), c ∈ chunkF n l → c.length ≤ 2000 := by
  intro n
  induction n with
  | zero => intro l c hc; simp [chunkF] at hc
  | succ n ih =>
    intro l c hc
    cases l with
    | nil => simp [chunkF] at hc
    | cons x xs =>
      simp only [chunkF, List.mem_cons] at hc
      rcases hc with rfl | hc
      · simp [List.length_take]
      · exact ih _ _ hc

/-! ## Claim C1 — conversation state after a failed model call -/

/-- C1, counterexample: a query on an empty channel whose backend call
raises leaves the channel history holding exactly the appended user
turn, with no assistant reply and no error marker after it — the claim's
"either not committed, or committed paired with an error marker" is
false on the code, while the error is indeed reported as a reply. -/
theorem handle_llm_query_error_orphan_cex :
    (handle_llm_query ⟨"llama3.1:8b", "You are a bot.", 2048, mkRat 4 5⟩ [] "alice" "hi"
        (.error "boom")).1 = [{ role := "user", content := "alice: hi" }] ∧
    user_turn_answered (handle_llm_query ⟨"llama3.1:8b", "You are a bot.", 2048, mkRat 4 5⟩ []
        "alice" "hi" (.error "boom")).1 = false ∧
    (handle_llm_query ⟨"llama3.1:8b", "You are a bot.", 2048, mkRat 4 5⟩ [] "alice" "hi"
        (.error "boom")).2 = ["Error processing your request: boom"] := by
  decide

/-- C1, amended: when the backend call raises, the handler catches the
exception and reports it as a single error reply, but the user message
appended before the call stays committed as the last entry of the
channel history — an orphaned half-turn with no assistant reply and no
error marker recorded after it. -/
theorem handle_llm_query_error_commits_half_turn (cfg : BotCfg) (history : List Msg)
    (user_name query e : String) :
    (∃ t, (handle_llm_query cfg history user_name query (.error e)).1 =
        t ++ [user_message user_name (parse_model_from_query cfg.model query).2]) ∧
    (handle_llm_query cfg history user_name query (.error e)).2 =
      ["Error processing your request: " ++ e] := by
  constructor
  · have hfst : (handle_llm_query cfg history user_name query (.error e)).1 =
        trim_history_if_needed cfg
          (history ++ [user_message user_name (parse_model_from_query cfg.model query).2]) := rfl
    rw [hfst]
    exact suffix_concat_last
      (trim_history_suffix cfg _)
      (trim_history_ne_nil cfg _ (by simp))
  · rfl

/-! ## Claim C2 — multiple model markers -/

/-- C2: on a query with two `!model=` markers the parser takes the
first marker's token as the model, but the cleaned query it returns has
every marker occurrence removed (`re.sub` with no count replaces all),
contradicting the expectation — asserted by the repository's own test
`test_parse_model_from_query_multiple_models` — that subsequent markers
remain verbatim. -/
theorem parse_model_multiple_markers_eval :
    parse_model_from_query "llama3.1:8b"
        "!model=gpt-4 some text !model=claude-3-opus more text"
      = ("gpt-4", "some text  more text") ∧
    ("some text  more text" : String) ≠ "some text !model=claude-3-opus more text" := by
  decide

/-! ## Claim C3 — token-budget trimming -/

/-- C3. For every per-channel history whose estimated token count
(system prompt plus all history entries, at `length / 4` each) exceeds
`int(context_length * context_trim_threshold)`, the trim operation
removes oldest entries from the front, one at a time, until the total is
at or under the threshold or exactly one entry remains, whichever comes
first: the result is a suffix of the original history (original order),
it satisfies one of the two stopping conditions, every longer suffix was
still over budget with more than one entry (nothing is removed after a
stopping condition holds), and the system message — held outside the
history — still heads the message list sent to the model. -/
theorem trim_history_spec (cfg : BotCfg) (hist : List Msg)
    (hne : hist ≠ [])
    (_hover : token_threshold cfg < total_tokens cfg hist) :
    trim_history_if_needed cfg hist <:+ hist ∧
    ((estimate_tokens cfg.system_message : ℤ) +
        (history_tokens (trim_history_if_needed cfg hist) : ℤ) ≤ token_threshold cfg ∨
      (trim_history_if_needed cfg hist).length = 1) ∧
    (∀ s, s <:+ hist → trim_history_if_needed cfg hist <:+ s →
      s ≠ trim_history_if_needed cfg hist →
      token_threshold cfg < (estimate_tokens cfg.system_message : ℤ) +
        (history_tokens s : ℤ) ∧ 1 < s.length) ∧
    (messages_for_model cfg (trim_history_if_needed cfg hist)).head? = some (system_msg cfg) := by
  obtain ⟨h1, h2, h3, h4⟩ :=
    trimLoop_spec (token_threshold cfg) (estimate_tokens cfg.system_message : ℤ) hist
  refine ⟨h1, ?_, h4, rfl⟩
  rcases h3 with h3 | h3
  · exact Or.inl h3
  · refine Or.inr (Nat.le_antisymm h3 ?_)
    have := h2 hne
    have : trim_history_if_needed cfg hist ≠ [] := this
    have hlen : (trim_history_if_needed cfg hist).length ≠ 0 := by
      simpa [List.length_eq_zero] using this
    omega

/-- Witness for `trim_history_spec`: a 3-entry history of 8-character
contents against a threshold of 4 tokens; the hypotheses hold and the
loop trims down to the single most recent entry. -/
theorem trim_history_spec_witness :
    trim_history_if_needed ⟨"m", "ssss", 8, mkRat 1 2⟩
        [⟨"user", "aaaaaaaa", [], none⟩, ⟨"assistant", "bbbbbbbb", [], none⟩,
         ⟨"user", "cccccccc", [], none⟩] <:+
      [⟨"user", "aaaaaaaa", [], none⟩, ⟨"assistant", "bbbbbbbb", [], none⟩,
       ⟨"user", "cccccccc", [], none⟩] ∧
    ((estimate_tokens "ssss" : ℤ) +
        (history_tokens (trim_history_if_needed ⟨"m", "ssss", 8, mkRat 1 2⟩
          [⟨"user", "aaaaaaaa", [], none⟩, ⟨"assistant", "bbbbbbbb", [], none⟩,
           ⟨"user", "cccccccc", [], none⟩]) : ℤ) ≤
        token_threshold ⟨"m", "ssss", 8, mkRat 1 2⟩ ∨
      (trim_history_if_needed ⟨"m", "ssss", 8, mkRat 1 2⟩
          [⟨"user", "aaaaaaaa", [], none⟩, ⟨"assistant", "bbbbbbbb", [], none⟩,
           ⟨"user", "cccccccc", [], none⟩]).length = 1) := by
  have h := trim_history_spec ⟨"m", "ssss", 8, mkRat 1 2⟩
    [⟨"user", "aaaaaaaa", [], none⟩, ⟨"assistant", "bbbbbbbb", [], none⟩,
     ⟨"user", "cccccccc", [], none⟩] (by decide) (by decide)
  exact ⟨h.1, h.2.1⟩

/-! ## Claim C4 — the tool-call round trip -/

/-- C4: when the first completion carries a non-empty list of tool-call
requests, the orchestrator invokes exactly the requested tools, once
each, in backend order (the invocation log is the request list's names
and arguments in order); it appends one `{role: tool}` result message
per request — carrying the request's correlation id when present — in
that same order after the raw assistant message on a copy of the input;
it then issues exactly one follow-up completion, passing no tool
declarations, and returns that second completion's text. -/
theorem chat_with_tools_tool_round (w : World) (tools : List String)
    (client : List Msg → Option (List String) → ChatResponse) (messages : List Msg)
    (h1 : tools ≠ [])
    (h2 : (client messages (some tools)).message.tool_calls ≠ []) :
    chat_with_tools w tools client messages =
      ((client (messages ++ [(client messages (some tools)).message] ++
          (client messages (some tools)).message.tool_calls.map (tool_result_message w))
          none).message.content,
       messages ++ [(client messages (some tools)).message] ++
          (client messages (some tools)).message.tool_calls.map (tool_result_message w),
       [(messages, some tools),
        (messages ++ [(client messages (some tools)).message] ++
          (client messages (some tools)).message.tool_calls.map (tool_result_message w), none)],
       (client messages (some tools)).message.tool_calls.map (fun tc => (tc.name, tc.arguments))) := by
  simp only [chat_with_tools]
  rw [if_neg h1, if_neg h2, tool_fold_eq]
  simp

/-- Witness for `chat_with_tools_tool_round`: a backend that requests an
`add_numbers` call (with a correlation id) and a zero-division
`divide_numbers` call (without one), then answers `"All done"`. -/
theorem chat_with_tools_tool_round_witness :
    chat_with_tools ⟨"now", fun _ => "", fun _ _ => ""⟩ TOOLS
      (fun _ t =>
        match t with
        | some _ => ⟨⟨"assistant", "",
            [⟨some "c1", "add_numbers", [("a", .num 2), ("b", .num 2)]⟩,
             ⟨none, "divide_numbers", [("a", .num 1), ("b", .num 0)]⟩], none⟩⟩
        | none => ⟨⟨"assistant", "All done", [], none⟩⟩)
      [⟨"user", "u: add and divide", [], none⟩] =
    ("All done",
     [⟨"user", "u: add and divide", [], none⟩,
      ⟨"assistant", "",
       [⟨some "c1", "add_numbers", [("a", .num 2), ("b", .num 2)]⟩,
        ⟨none, "divide_numbers", [("a", .num 1), ("b", .num 0)]⟩], none⟩,
      ⟨"tool", "4", [], some "c1"⟩,
      ⟨"tool", "Error calling tool divide_numbers: Invalid number format: Division by zero is not allowed",
       [], none⟩],
     [([⟨"user", "u: add and divide", [], none⟩], some TOOLS),
      ([⟨"user", "u: add and divide", [], none⟩,
        ⟨"assistant", "",
         [⟨some "c1", "add_numbers", [("a", .num 2), ("b", .num 2)]⟩,
          ⟨none, "divide_numbers", [("a", .num 1), ("b", .num 0)]⟩], none⟩,
        ⟨"tool", "4", [], some "c1"⟩,
        ⟨"tool", "Error calling tool divide_numbers: Invalid number format: Division by zero is not allowed",
         [], none⟩],
       none)],
     [("add_numbers", [("a", .num 2), ("b", .num 2)]),
      ("divide_numbers", [("a", .num 1), ("b", .num 0)])]) := by
  have h := chat_with_tools_tool_round ⟨"now", fun _ => "", fun _ _ => ""⟩ TOOLS
    (fun _ t =>
      match t with
      | some _ => ⟨⟨"assistant", "",
          [⟨some "c1", "add_numbers", [("a", .num 2), ("b", .num 2)]⟩,
           ⟨none, "divide_numbers", [("a", .num 1), ("b", .num 0)]⟩], none⟩⟩
      | none => ⟨⟨"assistant", "All done", [], none⟩⟩)
    [⟨"user", "u: add and divide", [], none⟩] (by decide) (by decide)
  exact h.trans rfl

/-! ## Claim C5 — single model marker -/

/-- C5, counterexample: for a query with one interior marker the code
leaves the two spaces that surrounded the marker uncollapsed
(`"Before  after"`, as the repository's own test expects), while the
claim's collapsed/trimmed cleaning would give `"Before after"`. -/
theorem parse_model_single_marker_cex :
    (parse_model_from_query "llama3.1:8b" "Before !model=claude-3-opus after").2
      = "Before  after" ∧
    cleaned_query_collapsed ("Before !model=claude-3-opus after".toList)
      = some ("Before after".toList) ∧
    ("Before  after" : String) ≠ "Before after" := by
  decide

/-- C5, amended: for every query containing exactly one `!model=<token>`
marker the parser returns the token as the model, and the cleaned query
is the original text with the marker deleted and leading/trailing
whitespace stripped; whitespace adjacent to an interior marker is left
as it stands, not collapsed. -/
theorem parse_model_single_marker (d q : String) (pre t post : List Char)
    (h1 : searchModel q.toList = some (pre, t, post))
    (h2 : searchModel post = none) :
    parse_model_from_query d q = (t.asString, (pyStrip (pre ++ post)).asString) := by
  have hsub : subAll q.toList = pre ++ post := by
    rw [subAll_of_search_some h1, subAll_of_search_none h2]
  unfold parse_model_from_query
  rw [h1]
  simp only [hsub]

/-- Witness for `parse_model_single_marker` at the test suite's
interior-marker query. -/
theorem parse_model_single_marker_witness :
    parse_model_from_query "llama3.1:8b" "Before !model=claude-3-opus after"
      = ("claude-3-opus", "Before  after") := by
  have h := parse_model_single_marker "llama3.1:8b" "Before !model=claude-3-opus after"
    "Before ".toList "claude-3-opus".toList " after".toList (by decide) (by decide)
  exact h.trans (by decide)

/-! ## Claim C6 — dispatch fails closed -/

/-- C6: tool dispatch fails closed. A name absent from the registry
yields the error result `Unknown tool: <name>` — naming the unknown
tool — for every argument mapping; and for every registered tool whose
implementation raises, dispatch returns the descriptive error string
`Error calling tool <name>: <exception text>` instead of propagating
the exception (`call_tool` is total: every outcome is a result
string). -/
theorem call_tool_fails_closed (w : World) (name : String) (args : Args) :
    ((TOOL_FUNCTIONS w).lookup name = none →
      call_tool w name args = "Unknown tool: " ++ name) ∧
    (∀ f e, (TOOL_FUNCTIONS w).lookup name = some f → f args = .error e →
      call_tool w name args = "Error calling tool " ++ name ++ ": " ++ e) := by
  constructor
  · intro h
    simp [call_tool, h]
  · intro f e hf he
    simp [call_tool, hf, he]

/-- Witness for `call_tool_fails_closed`: an unregistered name, and the
registered `divide_numbers` entry raising on a zero divisor. -/
theorem call_tool_fails_closed_witness :
    call_tool ⟨"now", fun _ => "", fun _ _ => ""⟩ "frobnicate" []
      = "Unknown tool: frobnicate" ∧
    call_tool ⟨"now", fun _ => "", fun _ _ => ""⟩ "divide_numbers"
        [("a", .num 1), ("b", .num 0)]
      = "Error calling tool divide_numbers: Invalid number format: Division by zero is not allowed" :=
  ⟨(call_tool_fails_closed ⟨"now", fun _ => "", fun _ _ => ""⟩ "frobnicate" []).1 rfl,
   (call_tool_fails_closed ⟨"now", fun _ => "", fun _ _ => ""⟩ "divide_numbers"
      [("a", .num 1), ("b", .num 0)]).2
     (fun args => do
        let (a, b) ← bindTwo "a" "b" args
        let r ← divide_numbers a b
        pure (pyStr r))
     "Invalid number format: Division by zero is not allowed" rfl rfl⟩

/-! ## Claim C7 — division by exact zero -/

/-- C7: invoking the divide tool through the registry with any argument
mapping whose divisor entry converts to exact zero always yields an
error result string (prefixed `Error calling tool divide_numbers:`, so
never a numeric rendering), and never an uncaught exception — whatever
the dividend, and even when the dividend entry is missing or
malformed. -/
theorem divide_by_zero_yields_error (w : World) (args : Args) (b : PyVal)
    (hb : args.lookup "b" = some b) (h0 : pyFloat b = .ok 0) :
    ∃ msg, call_tool w "divide_numbers" args =
      "Error calling tool divide_numbers: " ++ msg := by
  have hlook : (TOOL_FUNCTIONS w).lookup "divide_numbers" =
      some (fun args => do
        let (a, b) ← bindTwo "a" "b" args
        let r ← divide_numbers a b
        pure (pyStr r)) := rfl
  simp only [call_tool, hlook]
  cases hba : bindTwo "a" "b" args with
  | error err => exact ⟨err, rfl⟩
  | ok p =>
    obtain ⟨a, b'⟩ := p
    have hb' : b' = b := by
      have hthis := bindTwo_ok_snd hba
      rw [hb] at hthis
      injection hthis with hbb
      exact hbb.symm
    subst hb'
    cases hfa : pyFloat a with
    | error ea =>
      refine ⟨"Invalid number format: " ++ ea, ?_⟩
      simp [except_bind_ok, except_map_error, divide_numbers, hfa]
    | ok qa =>
      refine ⟨"Invalid number format: Division by zero is not allowed", ?_⟩
      simp [except_bind_ok, except_map_error, divide_numbers, hfa, h0]

/-- Witness for `divide_by_zero_yields_error`: dividing 3 by exact
zero through the registry. -/
theorem divide_by_zero_yields_error_witness :
    ∃ msg, call_tool ⟨"now", fun _ => "", fun _ _ => ""⟩ "divide_numbers"
        [("a", .num 3), ("b", .num 0)] =
      "Error calling tool divide_numbers: " ++ msg :=
  divide_by_zero_yields_error ⟨"now", fun _ => "", fun _ _ => ""⟩
    [("a", .num 3), ("b", .num 0)] (.num 0) rfl rfl

/-! ## Claim C9 — outbound chunking -/

/-- C9: the outbound send splits a reply of more than 2000 characters
into consecutive fixed-size slices, taken left to right with no
word-boundary awareness, sent as separate replies in order: their
concatenation in send order is the original reply, every chunk is at
most 2000 characters, and a reply of at most 2000 characters goes out
as a single message. -/
theorem reply_chunks_spec (l : List Char) :
    (reply_chunks l).flatten = l ∧
    (∀ c ∈ reply_chunks l, c.length ≤ 2000) ∧
    (l.length ≤ 2000 → reply_chunks l = [l]) := by
  by_cases h : 2000 < l.length
  · rw [reply_chunks, if_pos h]
    exact ⟨chunkF_flatten l.length l le_rfl, fun c hc => chunkF_length_le _ _ c hc,
      fun hle => absurd h (by omega)⟩
  · rw [reply_chunks, if_neg h]
    refine ⟨by simp, ?_, fun _ => rfl⟩
    intro c hc
    simp only [List.mem_singleton] at hc
    subst hc
    omega

/-- Witness for `reply_chunks_spec`: a two-character reply goes out as a
single message equal to itself. -/
theorem reply_chunks_spec_witness :
    reply_chunks ['h', 'i'] = [['h', 'i']] ∧ (reply_chunks ['h', 'i']).flatten = ['h', 'i'] :=
  ⟨(reply_chunks_spec ['h', 'i']).2.2 (by decide), (reply_chunks_spec ['h', 'i']).1⟩

/-! ## Claim C10 — the input message list is preserved -/

/-- C10: the orchestration never changes the message list it was given:
the input is always a front segment of the conversation it returns, new
entries being appended only past it (on the copy), and when no tool
calls are requested — or the tool set is empty — the returned
conversation is exactly the input list. -/
theorem chat_with_tools_preserves_input (w : World) (tools : List String)
    (client : List Msg → Option (List String) → ChatResponse) (messages : List Msg) :
    messages <+: (chat_with_tools w tools client messages).2.1 ∧
    (tools = [] → (chat_with_tools w tools client messages).2.1 = messages) ∧
    ((client messages (some tools)).message.tool_calls = [] →
      (chat_with_tools w tools client messages).2.1 = messages) := by
  by_cases h1 : tools = []
  · simp [chat_with_tools, h1]
  · by_cases h2 : (client messages (some tools)).message.tool_calls = []
    · have hconv : (chat_with_tools w tools client messages).2.1 = messages := by
        simp only [chat_with_tools]
        rw [if_neg h1, if_pos h2]
      refine ⟨?_, fun _ => hconv, fun _ => hconv⟩
      rw [hconv]
    · have hconv : (chat_with_tools w tools client messages).2.1 =
          messages ++ ([(client messages (some tools)).message] ++
            ((client messages (some tools)).message.tool_calls.foldl (fun acc tc =>
              (acc.1 ++ [{ role := "tool", content := call_tool w tc.name tc.arguments,
                           tool_call_id := tc.id : Msg }],
               acc.2 ++ [(tc.name, tc.arguments)])) ([], [])).1) := by
        simp only [chat_with_tools]
        rw [if_neg h1, if_neg h2]
        simp
      refine ⟨?_, fun h => absurd h h1, fun h => absurd h h2⟩
      rw [hconv]
      exact List.prefix_append _ _

/-- Witness for `chat_with_tools_preserves_input`: with the round-trip
backend of the tool-call witness, the one-entry input heads the
returned conversation, and with an empty tool set the conversation is
the input unchanged. -/
theorem chat_with_tools_preserves_input_witness :
    [(⟨"user", "u: hello", [], none⟩ : Msg)] <+:
      (chat_with_tools ⟨"now", fun _ => "", fun _ _ => ""⟩ TOOLS
        (fun _ t =>
          match t with
          | some _ => ⟨⟨"assistant", "", [⟨none, "get_current_time", []⟩], none⟩⟩
          | none => ⟨⟨"assistant", "done", [], none⟩⟩)
        [⟨"user", "u: hello", [], none⟩]).2.1 ∧
    (chat_with_tools ⟨"now", fun _ => "", fun _ _ => ""⟩ []
        (fun _ _ => ⟨⟨"assistant", "done", [], none⟩⟩)
        [⟨"user", "u: hello", [], none⟩]).2.1 =
      [⟨"user", "u: hello", [], none⟩] :=
  ⟨(chat_with_tools_preserves_input ⟨"now", fun _ => "", fun _ _ => ""⟩ TOOLS
      (fun _ t =>
        match t with
        | some _ => ⟨⟨"assistant", "", [⟨none, "get_current_time", []⟩], none⟩⟩
        | none => ⟨⟨"assistant", "done", [], none⟩⟩)
      [⟨"user", "u: hello", [], none⟩]).1,
   (chat_with_tools_preserves_input ⟨"now", fun _ => "", fun _ _ => ""⟩ []
      (fun _ _ => ⟨⟨"assistant", "done", [], none⟩⟩)
      [⟨"user", "u: hello", [], none⟩]).2.1 rfl⟩

end Llmbot
